import Mathlib

/-!
Shallow embedding of the ESC/POS receipt command formatter from
`printer.go` (repository icobani/printer), together with proofs that
settle the frozen specification claims about it.

Conventions of the embedding:
* Go byte strings are modelled as `List Nat`, each element a byte value
  (0..255).  All the literals of the repository are ASCII, so `bytes s`
  converts a Lean string literal to its byte list.
* The `Printer` struct is modelled by its formatter-relevant fields only
  (the Win32 handle, `Debug` and the debug buffer do not influence the
  emitted command bytes).
* `log.Fatalf` terminates the Go process before any further byte is
  written; it is modelled by the `configFatal` outcome.  A Go runtime
  panic (slice out of range, `&b[0]` on an empty slice) is modelled by
  the `panicked` outcome.  Both outcomes carry the bytes already written
  to the sink before the abort.
* `fmt.Sprintf("...%c...", v)` renders `v` as the UTF-8 encoding of the
  code point `v`, with invalid code points rendered as the replacement
  character; `fmtC` models this.
-/

namespace EscPos

/-- A Go byte string: list of byte values. -/
abbrev Bytes := List Nat

/-- Byte list of an ASCII Lean string literal (used for the ASCII
literals of the repository and parameter keys). -/
def bytes (s : String) : Bytes := s.data.map (fun c => c.toNat)

/-- UTF-8 encoding of a valid Unicode code point. -/
def utf8Bytes (n : Nat) : Bytes :=
  if n < 0x80 then [n]
  else if n < 0x800 then [0xC0 + n / 64, 0x80 + n % 64]
  else if n < 0x10000 then [0xE0 + n / 4096, 0x80 + n / 64 % 64, 0x80 + n % 64]
  else [0xF0 + n / 0x40000, 0x80 + n / 4096 % 64, 0x80 + n / 64 % 64, 0x80 + n % 64]

/-- UTF-8 bytes of the Unicode replacement character U+FFFD, which the Go
fmt package emits for a `%c` verb applied to an invalid code point. -/
def runeError : Bytes := [0xEF, 0xBF, 0xBD]

/-- Model of Go `fmt.Sprintf("%c", v)` as a byte list: a valid
non-surrogate code point is UTF-8 encoded, anything else renders the
replacement character. -/
def fmtC (i : Int) : Bytes :=
  if i < 0 ∨ 0x10FFFF < i ∨ (0xD800 ≤ i ∧ i ≤ 0xDFFF) then runeError
  else utf8Bytes i.toNat

/-- Formatter-relevant state of the Go `Printer` struct: the font
metrics and style toggles (all Go `uint8` fields). -/
structure Printer where
  width : Nat
  height : Nat
  underline : Nat
  emphasize : Nat
  upsidedown : Nat
  rotate : Nat
  reverse : Nat
  smooth : Nat
  deriving DecidableEq

/-- The all-defaults state produced by `reset`: width = height = 1 and
every toggle 0. -/
def pdefault : Printer := ⟨1, 1, 0, 0, 0, 0, 0, 0⟩

/-- Outcome of running a formatter operation: normal completion with the
bytes written and the updated state; process termination via
`log.Fatal*` on a caller configuration error; or a Go runtime panic.
The abnormal outcomes carry the bytes already written before the abort. -/
inductive EmitResult where
  | ok (out : Bytes) (st : Printer)
  | configFatal (out : Bytes)
  | panicked (out : Bytes)
  deriving DecidableEq

/-- Bytes written to the output sink by an operation (also on abort). -/
def EmitResult.out : EmitResult → Bytes
  | .ok o _ => o
  | .configFatal o => o
  | .panicked o => o

/-- Prepend already-written bytes to an outcome. -/
def EmitResult.prepend (o : Bytes) : EmitResult → EmitResult
  | .ok o2 st => .ok (o ++ o2) st
  | .configFatal o2 => .configFatal (o ++ o2)
  | .panicked o2 => .panicked (o ++ o2)

/-- Sequencing of formatter operations: an abort stops the run, a normal
completion threads the state and accumulates the written bytes. -/
def EmitResult.seq : EmitResult → (Printer → EmitResult) → EmitResult
  | .ok o st, f => (f st).prepend o
  | .configFatal o, _ => .configFatal o
  | .panicked o, _ => .panicked o

/-- Go `(*Printer).Write`: `WritePrinter(p.h, &b[0], ...)` — taking the
address of the first element of an empty slice panics at runtime;
otherwise the bytes reach the sink.  (Sink I/O errors from the OS are
outside this embedding; the formatter never inspects the written count.) -/
def Printer.Write (p : Printer) (b : Bytes) : EmitResult :=
  if b = [] then .panicked [] else .ok b p

/-- Go `WriteString`: converts the string to bytes and calls `Write`. -/
def Printer.WriteString (p : Printer) (s : Bytes) : EmitResult :=
  p.Write s

/-- Go `reset`: width/height back to 1 and all toggles to 0. -/
def Printer.reset (_ : Printer) : Printer := pdefault

/-- Go `Init`: reset the toggles and emit `ESC @`. -/
def Printer.Init (p : Printer) : EmitResult :=
  (p.reset).WriteString [0x1B, 0x40]

/-- Go `Linefeed`: emit a single `\n`. -/
def Printer.Linefeed (p : Printer) : EmitResult :=
  p.WriteString [0x0A]

/-- Go `FormfeedN`: emit `ESC d` followed by `%c` of the count. -/
def Printer.FormfeedN (p : Printer) (n : Int) : EmitResult :=
  p.WriteString ([0x1B, 0x64] ++ fmtC n)

/-- Go `Formfeed`: one form feed. -/
def Printer.Formfeed (p : Printer) : EmitResult :=
  p.FormfeedN 1

/-- Go `Cut`: emit `GS V A 0`. -/
def Printer.Cut (p : Printer) : EmitResult :=
  p.WriteString [0x1D, 0x56, 0x41, 0x30]

/-- Go `Pulse`: emit `ESC p 0x02`. -/
def Printer.Pulse (p : Printer) : EmitResult :=
  p.WriteString [0x1B, 0x70, 0x02]

/-- The packed font-size byte `((width-1)<<4)|(height-1)` computed in Go
`uint8` arithmetic (wrap-around subtraction and shift truncation). -/
def fontSizeByte (w h : Nat) : Nat :=
  ((w + 255) % 256 * 16 % 256) ||| ((h + 255) % 256)

/-- Go `SendFontSize`: emit `GS !` followed by `%c` of the packed byte. -/
def Printer.SendFontSize (p : Printer) : EmitResult :=
  p.WriteString ([0x1D, 0x21] ++ fmtC (fontSizeByte p.width p.height))

/-- Go `SetFontSize`: store width/height and emit the sequence when both
are in `[1,8]`, otherwise `log.Fatalf` (configuration error, nothing
emitted). -/
def Printer.SetFontSize (p : Printer) (w h : Nat) : EmitResult :=
  if 0 < w ∧ 0 < h ∧ w ≤ 8 ∧ h ≤ 8 then
    Printer.SendFontSize { p with width := w, height := h }
  else
    .configFatal []

/-- Go `SendUnderline`: emit `ESC -` followed by `%c` of the toggle. -/
def Printer.SendUnderline (p : Printer) : EmitResult :=
  p.WriteString ([0x1B, 0x2D] ++ fmtC p.underline)

/-- Go `SendEmphasize`: emit `ESC G` followed by `%c` of the toggle. -/
def Printer.SendEmphasize (p : Printer) : EmitResult :=
  p.WriteString ([0x1B, 0x47] ++ fmtC p.emphasize)

/-- Go `SendUpsidedown`: emit `ESC {` followed by `%c` of the toggle. -/
def Printer.SendUpsidedown (p : Printer) : EmitResult :=
  p.WriteString ([0x1B, 0x7B] ++ fmtC p.upsidedown)

/-- Go `SendRotate`: emit `ESC R` followed by `%c` of the toggle. -/
def Printer.SendRotate (p : Printer) : EmitResult :=
  p.WriteString ([0x1B, 0x52] ++ fmtC p.rotate)

/-- Go `SendReverse`: emit `GS B` followed by `%c` of the toggle. -/
def Printer.SendReverse (p : Printer) : EmitResult :=
  p.WriteString ([0x1D, 0x42] ++ fmtC p.reverse)

/-- Go `SendSmooth`: emit `GS b` followed by `%c` of the toggle. -/
def Printer.SendSmooth (p : Printer) : EmitResult :=
  p.WriteString ([0x1D, 0x62] ++ fmtC p.smooth)

/-- Go `SendMoveX`: `ESC $` then the `uint16` distance split into
`byte(x%256)`, `byte(x/256)`. -/
def Printer.SendMoveX (p : Printer) (x : Nat) : EmitResult :=
  p.WriteString [0x1B, 0x24, x % 256, x / 256 % 256]

/-- Go `SendMoveY`: `GS $` then the `uint16` distance split into
`byte(y%256)`, `byte(y/256)`. -/
def Printer.SendMoveY (p : Printer) (y : Nat) : EmitResult :=
  p.WriteString [0x1D, 0x24, y % 256, y / 256 % 256]

/-- Go `SetUnderline`: store the toggle and emit its sequence. -/
def Printer.SetUnderline (p : Printer) (v : Nat) : EmitResult :=
  Printer.SendUnderline { p with underline := v }

/-- Go `SetEmphasize`: store the toggle and emit its sequence. -/
def Printer.SetEmphasize (p : Printer) (v : Nat) : EmitResult :=
  Printer.SendEmphasize { p with emphasize := v }

/-- Go `SetUpsidedown`: store the toggle and emit its sequence. -/
def Printer.SetUpsidedown (p : Printer) (v : Nat) : EmitResult :=
  Printer.SendUpsidedown { p with upsidedown := v }

/-- Go `SetRotate`: store the toggle and emit its sequence. -/
def Printer.SetRotate (p : Printer) (v : Nat) : EmitResult :=
  Printer.SendRotate { p with rotate := v }

/-- Go `SetReverse`: store the toggle and emit its sequence. -/
def Printer.SetReverse (p : Printer) (v : Nat) : EmitResult :=
  Printer.SendReverse { p with reverse := v }

/-- Go `SetSmooth`: store the toggle and emit its sequence. -/
def Printer.SetSmooth (p : Printer) (v : Nat) : EmitResult :=
  Printer.SendSmooth { p with smooth := v }

/-- The alignment switch of Go `SetAlign`. -/
def alignCode (a : Bytes) : Option Nat :=
  if a = bytes "left" then some 0
  else if a = bytes "center" then some 1
  else if a = bytes "right" then some 2
  else none

/-- Go `SetAlign`: emit `ESC a` plus the alignment code, `log.Fatalf` on
an unmapped name. -/
def Printer.SetAlign (p : Printer) (align : Bytes) : EmitResult :=
  match alignCode align with
  | some a => p.WriteString ([0x1B, 0x61] ++ fmtC a)
  | none => .configFatal []

/-- The language switch of Go `SetLang`. -/
def langCode (l : Bytes) : Option Nat :=
  if l = bytes "en" then some 0
  else if l = bytes "fr" then some 1
  else if l = bytes "de" then some 2
  else if l = bytes "uk" then some 3
  else if l = bytes "da" then some 4
  else if l = bytes "sv" then some 5
  else if l = bytes "it" then some 6
  else if l = bytes "es" then some 7
  else if l = bytes "ja" then some 8
  else if l = bytes "no" then some 9
  else none

/-- Go `SetLang`: emit `ESC R` plus the language code, `log.Fatalf` on
an unmapped name. -/
def Printer.SetLang (p : Printer) (lang : Bytes) : EmitResult :=
  match langCode lang with
  | some l => p.WriteString ([0x1B, 0x52] ++ fmtC l)
  | none => .configFatal []

/-- The font switch of Go `SetFont`. -/
def fontCode (f : Bytes) : Option Nat :=
  if f = bytes "A" then some 0
  else if f = bytes "B" then some 1
  else if f = bytes "C" then some 2
  else none

/-- Go `SetFont`: emit `ESC M` plus the font index; the `default` arm
calls `log.Fatalf`, so the write after it is unreachable. -/
def Printer.SetFont (p : Printer) (font : Bytes) : EmitResult :=
  match fontCode font with
  | some f => p.WriteString ([0x1B, 0x4D] ++ fmtC f)
  | none => .configFatal []

/-- Parameter mapping of a command node (Go `map[string]string` with
unique keys), as an association list. -/
abbrev Params := List (Bytes × Bytes)

/-- Key lookup in a parameter mapping. -/
def lookup (params : Params) (key : Bytes) : Option Bytes :=
  match params with
  | [] => none
  | (k, v) :: rest => if k = key then some v else lookup rest key

/-- Value of an ASCII decimal digit byte. -/
def digitVal (b : Nat) : Option Nat :=
  if 48 ≤ b ∧ b ≤ 57 then some (b - 48) else none

/-- Accumulating decimal parse of a digit run. -/
def parseDigitsAux : Bytes → Nat → Option Nat
  | [], acc => some acc
  | b :: rest, acc =>
    match digitVal b with
    | some d => parseDigitsAux rest (acc * 10 + d)
    | none => none

/-- Decimal parse of a non-empty all-digit byte string. -/
def parseDigits (s : Bytes) : Option Nat :=
  match s with
  | [] => none
  | _ => parseDigitsAux s 0

/-- Model of Go `strconv.Atoi`: optional sign, decimal digits, error on
empty/garbled input and on 64-bit overflow. -/
def atoi (s : Bytes) : Option Int :=
  match s with
  | [] => none
  | c :: rest =>
    let neg := c = 45
    let ds := if c = 45 ∨ c = 43 then rest else s
    match parseDigits ds with
    | none => none
    | some n =>
      let v : Int := if neg then -(n : Int) else (n : Int)
      if -(2 ^ 63) ≤ v ∧ v ≤ 2 ^ 63 - 1 then some v else none

/-- Go conversion `uint8(i)` of a parsed `int`. -/
def toUint8 (i : Int) : Nat := (i % 256).toNat

/-- Go conversion `uint16(i)` of a parsed `int`. -/
def toUint16 (i : Int) : Nat := (i % 65536).toNat

/-- Replace every non-overlapping occurrence of `pat` in `s` by `rep`,
left to right (Go `strings.Replace(s, pat, rep, -1)` for a non-empty
pattern); the fuel is an upper bound on the scan length. -/
def replaceAllAux (fuel : Nat) (s pat rep : Bytes) : Bytes :=
  match fuel, s with
  | 0, _ => s
  | _, [] => []
  | fuel + 1, x :: xs =>
    if pat ≠ [] ∧ pat.isPrefixOf s then
      rep ++ replaceAllAux fuel (s.drop pat.length) pat rep
    else
      x :: replaceAllAux fuel xs pat rep

/-- Go `strings.Replace(s, pat, rep, -1)` for the non-empty patterns of
the entity table. -/
def strReplace (s pat rep : Bytes) : Bytes :=
  replaceAllAux s.length s pat rep

/-- The entries of Go `textReplaceMap` in the order of the source map
literal (ampersand written last).  Go iterates this `map` in an
unspecified, runtime-randomized order; `textReplaceWith` therefore takes
the iteration order as a parameter. -/
def textReplaceEntries : List (Bytes × Bytes) :=
  [(bytes "&#9;", [0x09]), (bytes "&#x9;", [0x09]),
   (bytes "&#10;", [0x0A]), (bytes "&#xA;", [0x0A]),
   (bytes "&apos;", [0x27]), (bytes "&quot;", [0x22]),
   (bytes "&gt;", [0x3E]), (bytes "&lt;", [0x3C]),
   (bytes "&amp;", [0x26])]

/-- Go `textReplace` for a given iteration order of the map entries. -/
def textReplaceWith (ord : List (Bytes × Bytes)) (data : Bytes) : Bytes :=
  ord.foldl (fun d kv => strReplace d kv.1 kv.2) data

/-- Go `textReplace` under the map-literal order (one possible iteration
order of the Go map; see `textReplaceWith`). -/
def textReplace (data : Bytes) : Bytes :=
  textReplaceWith textReplaceEntries data

/-- Truthiness test used by the boolean parameters of `Text`. -/
def truthy (v : Bytes) : Bool :=
  v = bytes "true" || v = bytes "1"

/-- One boolean-parameter block of Go `Text`: when the key is present
and truthy, run the corresponding setter. -/
def flagStep (params : Params) (key : Bytes) (set : Printer → EmitResult)
    (p : Printer) : EmitResult :=
  match lookup params key with
  | some v => if truthy v then set p else .ok [] p
  | none => .ok [] p

/-- One numeric-parameter block of Go `Text`/`Feed`: when the key is
present, `strconv.Atoi` it and run `use`; a parse failure is
`log.Fatalf`. -/
def numStep (params : Params) (key : Bytes) (use : Int → Printer → EmitResult)
    (p : Printer) : EmitResult :=
  match lookup params key with
  | some s =>
    match atoi s with
    | some i => use i p
    | none => .configFatal []
  | none => .ok [] p

/-- The alignment block shared by Go `Text` and `Image`. -/
def alignStep (params : Params) (p : Printer) : EmitResult :=
  match lookup params (bytes "align") with
  | some a => p.SetAlign a
  | none => .ok [] p

/-- The language block of Go `Text`. -/
def langStep (params : Params) (p : Printer) : EmitResult :=
  match lookup params (bytes "lang") with
  | some l => p.SetLang l
  | none => .ok [] p

/-- Model of `strings.ToUpper` applied to the one-byte string `v[5:6]`:
an ASCII byte uppercases in place; a lone non-ASCII byte is invalid
UTF-8 and maps to the replacement character. -/
def goToUpperByte (b : Nat) : Bytes :=
  if b < 128 then [if 97 ≤ b ∧ b ≤ 122 then b - 32 else b] else runeError

/-- The font block of Go `Text`: the slice `font[5:6]` panics when the
value is shorter than 6 bytes, otherwise selects by the byte at index 5,
upper-cased. -/
def fontStep (params : Params) (p : Printer) : EmitResult :=
  match lookup params (bytes "font") with
  | some v =>
    if v.length < 6 then .panicked []
    else p.SetFont (goToUpperByte (v.getD 5 0))
  | none => .ok [] p

/-- The payload block of Go `Text`: entity-substitute, then write the
result when non-empty. -/
def payloadStep (data : Bytes) (p : Printer) : EmitResult :=
  let d := textReplace data
  if 0 < d.length then p.WriteString d else .ok [] p

/-- Go `Text`: the parameter blocks in source order, then the payload. -/
def Printer.Text (params : Params) (data : Bytes) (p : Printer) : EmitResult :=
  (alignStep params p).seq fun p =>
  (langStep params p).seq fun p =>
  (flagStep params (bytes "smooth") (fun q => q.SetSmooth 1) p).seq fun p =>
  (flagStep params (bytes "em") (fun q => q.SetEmphasize 1) p).seq fun p =>
  (flagStep params (bytes "ul") (fun q => q.SetUnderline 1) p).seq fun p =>
  (flagStep params (bytes "reverse") (fun q => q.SetReverse 1) p).seq fun p =>
  (flagStep params (bytes "rotate") (fun q => q.SetRotate 1) p).seq fun p =>
  (fontStep params p).seq fun p =>
  (flagStep params (bytes "dw") (fun q => q.SetFontSize 2 q.height) p).seq fun p =>
  (flagStep params (bytes "dh") (fun q => q.SetFontSize q.width 2) p).seq fun p =>
  (numStep params (bytes "width") (fun i q => q.SetFontSize (toUint8 i) q.height) p).seq fun p =>
  (numStep params (bytes "height") (fun i q => q.SetFontSize q.width (toUint8 i)) p).seq fun p =>
  (numStep params (bytes "x") (fun i q => q.SendMoveX (toUint16 i)) p).seq fun p =>
  (numStep params (bytes "y") (fun i q => q.SendMoveY (toUint16 i)) p).seq fun p =>
  payloadStep data p

/-- The fixed tail of Go `Feed` after `reset`: the toggle re-emissions
in source order — emphasize, rotate, smooth, reverse, underline,
upside-down, font size, underline again. -/
def feedResetPart (p : Printer) : EmitResult :=
  (p.SendEmphasize).seq fun p =>
  (p.SendRotate).seq fun p =>
  (p.SendSmooth).seq fun p =>
  (p.SendReverse).seq fun p =>
  (p.SendUnderline).seq fun p =>
  (p.SendUpsidedown).seq fun p =>
  (p.SendFontSize).seq fun p =>
  p.SendUnderline

/-- Go `Feed`: optional form feeds (`line`), optional Y move (`unit`),
one linefeed, then `reset` and the toggle re-emissions. -/
def Printer.Feed (params : Params) (p : Printer) : EmitResult :=
  (numStep params (bytes "line") (fun i q => q.FormfeedN i) p).seq fun p =>
  (numStep params (bytes "unit") (fun i q => q.SendMoveY (toUint16 i)) p).seq fun p =>
  (p.Linefeed).seq fun p =>
  feedResetPart p.reset

/-- Go `FeedAndCut`: an extra form feed when `type` is `feed`, then the
cut sequence. -/
def Printer.FeedAndCut (params : Params) (p : Printer) : EmitResult :=
  (match lookup params (bytes "type") with
   | some t => if t = bytes "feed" then p.Formfeed else .ok [] p
   | none => .ok [] p).seq fun p =>
  p.Cut

/-- The format switch of Go `Barcode`: formats 0–4 and 73 map to a
one-byte code, everything else to the empty string. -/
def barcodeCode (format : Int) : Bytes :=
  if format = 0 then [0x00]
  else if format = 1 then [0x01]
  else if format = 2 then [0x02]
  else if format = 3 then [0x03]
  else if format = 4 then [0x04]
  else if format = 73 then [0x49]
  else []

/-- Go `fmt.Sprintf("%v", n)` for a non-negative `int`: the ASCII
decimal digits. -/
def decBytes (n : Nat) : Bytes := bytes (Nat.repr n)

/-- Go `Barcode`: select the format code, reset the toggles, centre the
alignment, write the length-prefixed (`format > 69`) or null-terminated
(`format < 69`) payload — neither for format 69 — then write the
barcode text again unconditionally. -/
def Printer.Barcode (p : Printer) (barcode : Bytes) (format : Int) : EmitResult :=
  let code := barcodeCode format
  ((p.reset).SetAlign (bytes "center")).seq fun p =>
  (if 69 < format then
     p.WriteString ([0x1D, 0x6B] ++ code ++ decBytes barcode.length ++ barcode)
   else if format < 69 then
     p.WriteString ([0x1D, 0x6B] ++ code ++ barcode ++ [0x00])
   else .ok [] p).seq fun p =>
  p.WriteString barcode

/-- Go `gSend`: the graphics frame `ESC ( L`, the two length bytes
`byte(l%256)`, `byte(l/256)` for `l = len(data)+2`, the mode and
function bytes, then the payload. -/
def Printer.gSend (p : Printer) (m fn : Nat) (data : Bytes) : EmitResult :=
  let l := data.length + 2
  (p.WriteString [0x1B, 0x28, 0x4C]).seq fun p =>
  (p.Write [l % 256, l / 256 % 256, m, fn]).seq fun p =>
  p.Write data

/-- Value of a byte in the standard base64 alphabet. -/
def b64Val (b : Nat) : Option Nat :=
  if 65 ≤ b ∧ b ≤ 90 then some (b - 65)
  else if 97 ≤ b ∧ b ≤ 122 then some (b - 71)
  else if 48 ≤ b ∧ b ≤ 57 then some (b + 4)
  else if b = 43 then some 62
  else if b = 47 then some 63
  else none

/-- Quantum-by-quantum standard base64 decode: four input bytes at a
time, padding `=` only in the final quantum (`xx==` or `xxx=`), error on
any other shape (Go `CorruptInputError`). -/
def b64Groups : Bytes → Option Bytes
  | [] => some []
  | a :: b :: c :: d :: rest =>
    match b64Val a, b64Val b with
    | some va, some vb =>
      if c = 61 then
        if d = 61 ∧ rest = [] then some [va * 4 + vb / 16] else none
      else
        match b64Val c with
        | some vc =>
          if d = 61 then
            if rest = [] then some [va * 4 + vb / 16, vb % 16 * 16 + vc / 4] else none
          else
            match b64Val d with
            | some vd =>
              match b64Groups rest with
              | some tail =>
                some ([va * 4 + vb / 16, vb % 16 * 16 + vc / 4, vc % 4 * 64 + vd] ++ tail)
              | none => none
            | none => none
        | none => none
    | _, _ => none
  | _ => none

/-- Model of Go `base64.StdEncoding.DecodeString`: newlines are skipped,
then the input is decoded quantum by quantum. -/
def base64Decode (s : Bytes) : Option Bytes :=
  b64Groups (s.filter (fun b => b ≠ 10 ∧ b ≠ 13))

/-- Go `Image`: optional alignment, the `width` and `height` parameters
must be present and numeric but are only logged (never emitted), the
payload must decode from base64; then the raster header plus bitmap goes
through `gSend` with function byte `p`, followed by an empty finalizing
`gSend` with function byte `2`. -/
def Printer.Image (params : Params) (data : Bytes) (p : Printer) : EmitResult :=
  (alignStep params p).seq fun p =>
  match lookup params (bytes "width") with
  | none => .configFatal []
  | some wstr =>
    match lookup params (bytes "height") with
    | none => .configFatal []
    | some hstr =>
      match atoi wstr with
      | none => .configFatal []
      | some _ =>
        match atoi hstr with
        | none => .configFatal []
        | some _ =>
          match base64Decode data with
          | none => .configFatal []
          | some dec =>
            (p.gSend 0x30 0x70 ([0x30, 0x01, 0x01, 0x31] ++ dec)).seq fun p =>
            p.gSend 0x30 0x32 []

/-- Go `WriteNode`: route the node name to its handler; the preamble
`log.Printf` goes to the process log, not the printer sink, and an
unrecognized name falls through the `switch` doing nothing. -/
def Printer.WriteNode (name : Bytes) (params : Params) (data : Bytes)
    (p : Printer) : EmitResult :=
  if name = bytes "text" then p.Text params data
  else if name = bytes "feed" then p.Feed params
  else if name = bytes "cut" then p.FeedAndCut params
  else if name = bytes "pulse" then p.Pulse
  else if name = bytes "image" then p.Image params data
  else .ok [] p

/-- The byte sequences re-emitted by `Feed` after `reset`, in the order
the source emits them: emphasize, rotate, smooth, reverse, underline,
upside-down, font size, underline again (all at default values). -/
def feedTrailer : Bytes :=
  [0x1B, 0x47, 0x00, 0x1B, 0x52, 0x00, 0x1D, 0x62, 0x00, 0x1D, 0x42, 0x00,
   0x1B, 0x2D, 0x00, 0x1B, 0x7B, 0x00, 0x1D, 0x21, 0x00, 0x1B, 0x2D, 0x00]

/-- Modelled from the words of the spec for claim C2: the re-emission order
the claim states — emphasize, rotate, smooth, reverse, underline twice,
upside-down, font size (all at default values). -/
def feedSpecTrailer : Bytes :=
  [0x1B, 0x47, 0x00, 0x1B, 0x52, 0x00, 0x1D, 0x62, 0x00, 0x1D, 0x42, 0x00,
   0x1B, 0x2D, 0x00, 0x1B, 0x2D, 0x00, 0x1B, 0x7B, 0x00, 0x1D, 0x21, 0x00]

/-- Bytes of the optional `line` block of `Feed` (`none` when the
parameter fails to parse). -/
def feedLineBytes (params : Params) : Option Bytes :=
  match lookup params (bytes "line") with
  | none => some []
  | some l =>
    match atoi l with
    | none => none
    | some i => some ([0x1B, 0x64] ++ fmtC i)

/-- Bytes of the optional `unit` block of `Feed` (`none` when the
parameter fails to parse). -/
def feedUnitBytes (params : Params) : Option Bytes :=
  match lookup params (bytes "unit") with
  | none => some []
  | some u =>
    match atoi u with
    | none => none
    | some i => some [0x1D, 0x24, toUint16 i % 256, toUint16 i / 256 % 256]

/-- Bytes emitted by `Feed` before the linefeed. -/
def feedHeadBytes (params : Params) : Option Bytes :=
  match feedLineBytes params, feedUnitBytes params with
  | some a, some b => some (a ++ b)
  | _, _ => none

lemma fmtC_coe_small {n : Nat} (h : n < 128) : fmtC n = [n] := by
  have h0 : ¬((n : Int) < 0 ∨ 0x10FFFF < (n : Int) ∨
      (0xD800 ≤ (n : Int) ∧ (n : Int) ≤ 0xDFFF)) := by omega
  simp only [fmtC, h0, if_false]
  simp [utf8Bytes, h]

lemma fontSizeByte_eq {w h : Nat} (h1 : 1 ≤ w) (h2 : w ≤ 8) (h3 : 1 ≤ h)
    (h4 : h ≤ 8) : fontSizeByte w h = (w - 1) * 16 + (h - 1) ∧ fontSizeByte w h < 128 := by
  interval_cases w <;> interval_cases h <;> decide

/-- C1: for width and height both in `[1,8]`, `SetFontSize` records
exactly (width, height) in the session state and emits `GS !` followed
by the single byte `((width-1)<<4)|(height-1)`. -/
theorem setFontSize_valid_emits_packed_byte (p : Printer) (w h : Nat)
    (h1 : 1 ≤ w) (h2 : w ≤ 8) (h3 : 1 ≤ h) (h4 : h ≤ 8) :
    p.SetFontSize w h =
      .ok [0x1D, 0x21, (w - 1) * 16 + (h - 1)] { p with width := w, height := h } := by
  obtain ⟨hv, hlt⟩ := fontSizeByte_eq h1 h2 h3 h4
  have hc : 0 < w ∧ 0 < h ∧ w ≤ 8 ∧ h ≤ 8 := ⟨h1, h3, h2, h4⟩
  simp only [Printer.SetFontSize, if_pos hc, Printer.SendFontSize,
    Printer.WriteString, Printer.Write]
  rw [fmtC_coe_small hlt, hv]
  simp

/-- Witness for C1 at width 2, height 3 from the default state. -/
theorem setFontSize_valid_emits_packed_byte_witness :
    Printer.SetFontSize pdefault 2 3 =
      .ok [0x1D, 0x21, 18] { pdefault with width := 2, height := 3 } :=
  setFontSize_valid_emits_packed_byte pdefault 2 3 (by decide) (by decide)
    (by decide) (by decide)

/-- C5: for width or height outside `[1,8]`, `SetFontSize` aborts with a
configuration error (`log.Fatalf` in the source) and emits no bytes. -/
theorem setFontSize_invalid_fatal_no_bytes (p : Printer) (w h : Nat)
    (hbad : ¬(1 ≤ w ∧ w ≤ 8) ∨ ¬(1 ≤ h ∧ h ≤ 8)) :
    p.SetFontSize w h = .configFatal [] := by
  have hc : ¬(0 < w ∧ 0 < h ∧ w ≤ 8 ∧ h ≤ 8) := by omega
  simp [Printer.SetFontSize, hc]

/-- Witness for C5 at width 0 (and at width 9). -/
theorem setFontSize_invalid_fatal_no_bytes_witness :
    Printer.SetFontSize pdefault 0 3 = .configFatal [] ∧
    Printer.SetFontSize pdefault 9 3 = .configFatal [] :=
  ⟨setFontSize_invalid_fatal_no_bytes pdefault 0 3 (Or.inl (by decide)),
   setFontSize_invalid_fatal_no_bytes pdefault 9 3 (Or.inl (by decide))⟩

lemma writeString_ne_nil {l : Bytes} (hl : l ≠ []) (p : Printer) :
    p.WriteString l = .ok l p := by
  simp [Printer.WriteString, Printer.Write, hl]

lemma write_ne_nil {l : Bytes} (hl : l ≠ []) (p : Printer) :
    p.Write l = .ok l p := by
  simp [Printer.Write, hl]

lemma out_prepend (o : Bytes) (r : EmitResult) :
    (r.prepend o).out = o ++ r.out := by
  cases r <;> simp [EmitResult.prepend, EmitResult.out]

lemma write_out (p : Printer) (l : Bytes) : (p.Write l).out = l := by
  by_cases hl : l = []
  · subst hl; simp [Printer.Write, EmitResult.out]
  · simp [Printer.Write, hl, EmitResult.out]

lemma seq_eq_ok {r : EmitResult} {f : Printer → EmitResult} {out : Bytes}
    {st : Printer} :
    r.seq f = .ok out st ↔
      ∃ o1 p1 o2, r = .ok o1 p1 ∧ f p1 = .ok o2 st ∧ out = o1 ++ o2 := by
  constructor
  · intro h
    cases r with
    | ok o p =>
      cases hf : f p with
      | ok o2 st2 =>
        rw [EmitResult.seq, hf] at h
        simp only [EmitResult.prepend] at h
        injection h with e1 e2
        exact ⟨o, p, o2, rfl, by rw [hf, e2], e1.symm⟩
      | configFatal o2 => rw [EmitResult.seq, hf] at h; simp [EmitResult.prepend] at h
      | panicked o2 => rw [EmitResult.seq, hf] at h; simp [EmitResult.prepend] at h
    | configFatal o => simp [EmitResult.seq] at h
    | panicked o => simp [EmitResult.seq] at h
  · rintro ⟨o1, p1, o2, rfl, h2, rfl⟩
    simp [EmitResult.seq, h2, EmitResult.prepend]

lemma seq_panicked_of {r : EmitResult} {f : Printer → EmitResult} {o : Bytes}
    {p : Printer} (h : r = .ok o p) (hrest : ∃ o2, f p = .panicked o2) :
    ∃ o3, r.seq f = .panicked o3 := by
  obtain ⟨o2, h2⟩ := hrest
  exact ⟨o ++ o2, by rw [h, EmitResult.seq, h2]; rfl⟩

lemma feedResetPart_reset (p : Printer) :
    feedResetPart (Printer.reset p) = .ok feedTrailer pdefault := by
  simp only [Printer.reset]
  decide

lemma feedLine_run {params : Params} {p p1 : Printer} {o1 : Bytes}
    (h : numStep params (bytes "line") (fun i q => q.FormfeedN i) p = .ok o1 p1) :
    feedLineBytes params = some o1 ∧ p1 = p := by
  cases hl : lookup params (bytes "line") with
  | none =>
    simp only [numStep, hl] at h
    cases h
    simp [feedLineBytes, hl]
  | some l =>
    cases ha : atoi l with
    | none =>
      simp only [numStep, hl, ha] at h
      exact absurd h (by simp)
    | some i =>
      simp only [numStep, hl, ha, Printer.FormfeedN] at h
      rw [writeString_ne_nil (by simp)] at h
      cases h
      simp [feedLineBytes, hl, ha]

lemma feedUnit_run {params : Params} {p p1 : Printer} {o1 : Bytes}
    (h : numStep params (bytes "unit") (fun i q => q.SendMoveY (toUint16 i)) p = .ok o1 p1) :
    feedUnitBytes params = some o1 ∧ p1 = p := by
  cases hl : lookup params (bytes "unit") with
  | none =>
    simp only [numStep, hl] at h
    cases h
    simp [feedUnitBytes, hl]
  | some u =>
    cases ha : atoi u with
    | none =>
      simp only [numStep, hl, ha] at h
      exact absurd h (by simp)
    | some i =>
      simp only [numStep, hl, ha, Printer.SendMoveY] at h
      rw [writeString_ne_nil (by simp)] at h
      cases h
      simp [feedUnitBytes, hl, ha]

/-- C6: all session toggles equal their defaults (width = height = 1,
boolean toggles 0) immediately after stream initialization (`Init`) and
immediately after every completed run of the `feed` node operation. -/
theorem toggles_default_after_init_and_feed :
    (∀ p : Printer, p.Init = .ok [0x1B, 0x40] pdefault) ∧
    (∀ (params : Params) (p : Printer) (out : Bytes) (st : Printer),
      p.Feed params = .ok out st → st = pdefault) := by
  constructor
  · intro p; rfl
  · intro params p out st h
    simp only [Printer.Feed, seq_eq_ok] at h
    obtain ⟨o1, p1, o2, _, ⟨o3, p2, o4, _, ⟨o5, p3, o6, _, h6, rfl⟩, rfl⟩, rfl⟩ := h
    rw [feedResetPart_reset] at h6
    cases h6
    rfl

/-- Witness for C6: a run of `Feed` from a fully non-default state ends
in the default state. -/
theorem toggles_default_after_init_and_feed_witness :
    (⟨1, 1, 0, 0, 0, 0, 0, 0⟩ : Printer) = pdefault :=
  toggles_default_after_init_and_feed.2 [] ⟨3, 4, 1, 1, 1, 1, 1, 1⟩
    ([0x0A] ++ feedTrailer) ⟨1, 1, 0, 0, 0, 0, 0, 0⟩ (by decide)

/-- Counterexample for C2: with the empty parameter mapping, the bytes
`Feed` emits are not one linefeed followed by the order stated in the
claim (emphasize, rotate, smooth, reverse, underline twice, upside-down,
font size): the second underline emission actually comes last, after
font size. -/
theorem feed_claimed_order_counterexample :
    (Printer.Feed [] pdefault).out ≠ [0x0A] ++ feedSpecTrailer := by decide

/-- C2 (amended): every completed run of `Feed` emits the optional
form-feed and positional-move bytes, one linefeed, then resets state to
defaults and re-emits the default-valued escape sequences in the fixed
order emphasize, rotate, smooth, reverse, underline, upside-down, font
size, underline again (the second underline emission is last). -/
theorem feed_emission_structure (params : Params) (p : Printer) (out : Bytes)
    (st : Printer) (h : p.Feed params = .ok out st) :
    ∃ pre, feedHeadBytes params = some pre ∧ out = pre ++ [0x0A] ++ feedTrailer := by
  simp only [Printer.Feed, seq_eq_ok] at h
  obtain ⟨o1, p1, o2, h1, ⟨o3, p2, o4, h3, ⟨o5, p3, o6, h5, h6, rfl⟩, rfl⟩, rfl⟩ := h
  obtain ⟨hlb, -⟩ := feedLine_run h1
  obtain ⟨hub, -⟩ := feedUnit_run h3
  have h5x : EmitResult.ok [0x0A] p2 = .ok o5 p3 := h5
  injection h5x with e5 e5b
  rw [feedResetPart_reset] at h6
  injection h6 with e6 e6b
  subst e5
  subst e6
  exact ⟨o1 ++ o3, by simp [feedHeadBytes, hlb, hub], by simp⟩

/-- Witness for C2 (amended) at the empty parameter mapping. -/
theorem feed_emission_structure_witness :
    ∃ pre, feedHeadBytes [] = some pre ∧
      ([0x0A] ++ feedTrailer : Bytes) = pre ++ [0x0A] ++ feedTrailer :=
  feed_emission_structure [] pdefault ([0x0A] ++ feedTrailer) pdefault (by decide)

/-- C3 (code bug): `textReplace` iterates the Go map `textReplaceMap`,
whose iteration order is unspecified and runtime-randomized, although
the comment on the map in the source says the ampersand entry must be
replaced last to avoid double decoding.  Under the map-literal order the
input `&amp;lt;` yields `&lt;`, but an iteration order that visits the
ampersand entry first — a permutation of the same entries — yields `<`:
the substitution is not reliably a single non-recursive pass. -/
theorem textReplace_order_dependent :
    textReplaceWith textReplaceEntries (bytes "&amp;lt;") = bytes "&lt;" ∧
    ∃ ord, ord.Perm textReplaceEntries ∧
      textReplaceWith ord (bytes "&amp;lt;") = bytes "<" := by
  refine ⟨by decide, (bytes "&amp;", [0x26]) :: textReplaceEntries.take 8, ?_, by decide⟩
  decide

lemma writeString_out (p : Printer) (l : Bytes) : (p.WriteString l).out = l :=
  write_out p l

lemma setAlign_center_reset (q : Printer) :
    (Printer.reset q).SetAlign (bytes "center") = .ok [0x1B, 0x61, 0x01] pdefault := by
  simp only [Printer.reset]
  decide

/-- Counterexample for C4: for format 70 and text `12345` the emission
contains no length byte 0x05 anywhere — the length prefix the source
writes is the ASCII decimal rendering of the length (`%v`, byte 0x35),
and format 70 maps to the empty format code. -/
theorem barcode_lenByte_counterexample :
    (Printer.Barcode pdefault (bytes "12345") 70).out =
      [0x1B, 0x61, 0x01, 0x1D, 0x6B, 0x35,
       0x31, 0x32, 0x33, 0x34, 0x35, 0x31, 0x32, 0x33, 0x34, 0x35] ∧
    0x05 ∉ (Printer.Barcode pdefault (bytes "12345") 70).out := by decide

/-- C4 (amended): `Barcode` first resets the toggles and emits the
centre-alignment bytes; for `format > 69` the payload carries a length
prefix that is the ASCII decimal rendering of the text length (not a
raw length byte — two bytes for texts of length 10 or more), for
`format < 69` the payload is null-terminated, and for format exactly 69
neither length nor terminator is written; in every case the barcode
text is then re-emitted a second time unconditionally.  For format 70
the format code from the table is empty. -/
theorem barcode_emission (p : Printer) (bc : Bytes) (format : Int) :
    (69 < format →
      (p.Barcode bc format).out =
        [0x1B, 0x61, 0x01, 0x1D, 0x6B] ++ barcodeCode format ++
          decBytes bc.length ++ bc ++ bc) ∧
    (format < 69 →
      (p.Barcode bc format).out =
        [0x1B, 0x61, 0x01, 0x1D, 0x6B] ++ barcodeCode format ++ bc ++ [0x00] ++ bc) ∧
    (format = 69 → (p.Barcode bc format).out = [0x1B, 0x61, 0x01] ++ bc) := by
  refine ⟨fun h => ?_, fun h => ?_, fun h => ?_⟩
  · simp only [Printer.Barcode, setAlign_center_reset, EmitResult.seq, if_pos h]
    rw [writeString_ne_nil (by simp)]
    simp only [EmitResult.seq]
    rw [out_prepend, out_prepend, writeString_out]
    simp
  · have h69 : ¬(69 < format) := by omega
    simp only [Printer.Barcode, setAlign_center_reset, EmitResult.seq, if_neg h69,
      if_pos h]
    rw [writeString_ne_nil (by simp)]
    simp only [EmitResult.seq]
    rw [out_prepend, out_prepend, writeString_out]
    simp
  · subst h
    simp only [Printer.Barcode, setAlign_center_reset, EmitResult.seq,
      if_neg (by omega : ¬(69 : Int) < 69), if_neg (by omega : ¬(69 : Int) < 69)]
    rw [out_prepend, out_prepend, writeString_out]
    simp

/-- Witness for C4 (amended) at format 70 and text `12345`. -/
theorem barcode_emission_witness :
    (Printer.Barcode pdefault (bytes "12345") 70).out =
      [0x1B, 0x61, 0x01, 0x1D, 0x6B] ++ barcodeCode 70 ++
        decBytes (bytes "12345").length ++ bytes "12345" ++ bytes "12345" :=
  (barcode_emission pdefault (bytes "12345") 70).1 (by decide)

/-- C7: for every mode byte, function byte and payload, `gSend` emits
exactly the prefix ESC ( L, the 16-bit value `len(payload)+2` split
little-endian into low byte then high byte, the mode byte, the function
byte, then the payload verbatim. -/
theorem gSend_frame (p : Printer) (m fn : Nat) (data : Bytes) :
    (p.gSend m fn data).out =
      [0x1B, 0x28, 0x4C, (data.length + 2) % 256,
       (data.length + 2) % 65536 / 256, m, fn] ++ data := by
  have hsplit : (data.length + 2) / 256 % 256 = (data.length + 2) % 65536 / 256 := by
    omega
  simp only [Printer.gSend, Printer.WriteString]
  rw [write_ne_nil (by simp) p]
  simp only [EmitResult.seq]
  rw [write_ne_nil (by simp)]
  simp only [EmitResult.seq]
  rw [out_prepend, out_prepend, write_out, hsplit]
  simp

/-- C8: dispatching a node whose name is outside text, feed, cut, pulse
and image writes nothing to the output sink and raises no error. -/
theorem writeNode_unknown_noop (name : Bytes) (params : Params) (data : Bytes)
    (p : Printer)
    (h1 : name ≠ bytes "text") (h2 : name ≠ bytes "feed")
    (h3 : name ≠ bytes "cut") (h4 : name ≠ bytes "pulse")
    (h5 : name ≠ bytes "image") :
    p.WriteNode name params data = .ok [] p := by
  simp [Printer.WriteNode, h1, h2, h3, h4, h5]

/-- Witness for C8 at the unrecognized node name `qrcode`. -/
theorem writeNode_unknown_noop_witness :
    Printer.WriteNode (bytes "qrcode") [] [] pdefault = .ok [] pdefault :=
  writeNode_unknown_noop (bytes "qrcode") [] [] pdefault (by decide) (by decide)
    (by decide) (by decide) (by decide)

lemma alignStep_ok {params : Params} (p : Printer)
    (halign : ∀ a, lookup params (bytes "align") = some a → alignCode a ≠ none) :
    ∃ o p1, alignStep params p = .ok o p1 := by
  cases ha : lookup params (bytes "align") with
  | none => exact ⟨[], p, by simp [alignStep, ha]⟩
  | some a =>
    cases hc : alignCode a with
    | none => exact absurd hc (halign a ha)
    | some c =>
      refine ⟨[0x1B, 0x61] ++ fmtC c, p, ?_⟩
      simp only [alignStep, ha, Printer.SetAlign, hc]
      exact writeString_ne_nil (by simp) p

lemma langStep_ok {params : Params} (p : Printer)
    (hlang : ∀ l, lookup params (bytes "lang") = some l → langCode l ≠ none) :
    ∃ o p1, langStep params p = .ok o p1 := by
  cases ha : lookup params (bytes "lang") with
  | none => exact ⟨[], p, by simp [langStep, ha]⟩
  | some l =>
    cases hc : langCode l with
    | none => exact absurd hc (hlang l ha)
    | some c =>
      refine ⟨[0x1B, 0x52] ++ fmtC c, p, ?_⟩
      simp only [langStep, ha, Printer.SetLang, hc]
      exact writeString_ne_nil (by simp) p

lemma flagStep_ok {params : Params} {key : Bytes} {set : Printer → EmitResult}
    (p : Printer) (hset : ∀ q, ∃ o q1, set q = .ok o q1) :
    ∃ o p1, flagStep params key set p = .ok o p1 := by
  cases hv : lookup params key with
  | none => exact ⟨[], p, by simp [flagStep, hv]⟩
  | some v =>
    by_cases ht : truthy v
    · obtain ⟨o, q1, h⟩ := hset p
      exact ⟨o, q1, by simp [flagStep, hv, ht, h]⟩
    · exact ⟨[], p, by simp [flagStep, hv, ht]⟩

/-- Counterexample for C9: a text invocation whose mapping holds a
`font` value shorter than 6 bytes together with an invalid `align`
value aborts with a configuration error (`log.Fatalf` in `SetAlign`),
not with the slice panic, because the alignment block runs first. -/
theorem text_shortFont_counterexample :
    Printer.Text [(bytes "align", bytes "zz"), (bytes "font", [])] [] pdefault =
      .configFatal [] := by decide

/-- C9 (amended): a text invocation whose mapping holds the key `font`
with a value shorter than 6 bytes, and whose `align` and `lang`
parameters (processed earlier) are absent or valid, aborts with the
out-of-range string-slice panic of `font[5:6]` instead of a
configuration error or a no-op. -/
theorem text_shortFont_panics (params : Params) (data : Bytes) (p : Printer)
    (f : Bytes)
    (halign : ∀ a, lookup params (bytes "align") = some a → alignCode a ≠ none)
    (hlang : ∀ l, lookup params (bytes "lang") = some l → langCode l ≠ none)
    (hf : lookup params (bytes "font") = some f)
    (hlen : f.length < 6) :
    ∃ out, Printer.Text params data p = .panicked out := by
  simp only [Printer.Text]
  obtain ⟨o1, p1, h1⟩ := alignStep_ok p halign
  refine seq_panicked_of h1 ?_
  obtain ⟨o2, p2, h2⟩ := langStep_ok p1 hlang
  refine seq_panicked_of h2 ?_
  obtain ⟨o3, p3, h3⟩ := flagStep_ok p2
    (fun q => ⟨[0x1D, 0x62] ++ fmtC (1 : Nat), { q with smooth := 1 },
      writeString_ne_nil (by simp) _⟩)
  refine seq_panicked_of h3 ?_
  obtain ⟨o4, p4, h4⟩ := flagStep_ok p3
    (fun q => ⟨[0x1B, 0x47] ++ fmtC (1 : Nat), { q with emphasize := 1 },
      writeString_ne_nil (by simp) _⟩)
  refine seq_panicked_of h4 ?_
  obtain ⟨o5, p5, h5⟩ := flagStep_ok p4
    (fun q => ⟨[0x1B, 0x2D] ++ fmtC (1 : Nat), { q with underline := 1 },
      writeString_ne_nil (by simp) _⟩)
  refine seq_panicked_of h5 ?_
  obtain ⟨o6, p6, h6⟩ := flagStep_ok p5
    (fun q => ⟨[0x1D, 0x42] ++ fmtC (1 : Nat), { q with reverse := 1 },
      writeString_ne_nil (by simp) _⟩)
  refine seq_panicked_of h6 ?_
  obtain ⟨o7, p7, h7⟩ := flagStep_ok p6
    (fun q => ⟨[0x1B, 0x52] ++ fmtC (1 : Nat), { q with rotate := 1 },
      writeString_ne_nil (by simp) _⟩)
  refine seq_panicked_of h7 ?_
  exact ⟨[], by simp [fontStep, hf, if_pos hlen, EmitResult.seq]⟩

/-- Witness for C9 (amended): the mapping holding only a 3-byte `font`
value runs into the slice panic. -/
theorem text_shortFont_panics_witness :
    ∃ out, Printer.Text [(bytes "font", bytes "abc")] [] pdefault = .panicked out := by
  have hna : lookup [(bytes "font", bytes "abc")] (bytes "align") = none := by decide
  have hnl : lookup [(bytes "font", bytes "abc")] (bytes "lang") = none := by decide
  exact text_shortFont_panics [(bytes "font", bytes "abc")] [] pdefault (bytes "abc")
    (fun a ha => absurd (hna ▸ ha) (by simp))
    (fun l hl => absurd (hnl ▸ hl) (by simp))
    (by decide) (by decide)

/-- C10: two image invocations with the same payload, the same `align`
parameter, and any present-and-numeric `width` and `height` values
write identical bytes to the output sink — the parsed width and height
are only logged, never encoded into the raster header or framing. -/
theorem image_ignores_dims (p : Printer) (data : Bytes) (ps1 ps2 : Params)
    (w1 w2 h1 h2 : Bytes) (i1 i2 j1 j2 : Int)
    (ha : lookup ps1 (bytes "align") = lookup ps2 (bytes "align"))
    (hw1 : lookup ps1 (bytes "width") = some w1) (hi1 : atoi w1 = some i1)
    (hh1 : lookup ps1 (bytes "height") = some h1) (hj1 : atoi h1 = some j1)
    (hw2 : lookup ps2 (bytes "width") = some w2) (hi2 : atoi w2 = some i2)
    (hh2 : lookup ps2 (bytes "height") = some h2) (hj2 : atoi h2 = some j2) :
    (p.Image ps1 data).out = (p.Image ps2 data).out := by
  have heq : p.Image ps1 data = p.Image ps2 data := by
    simp only [Printer.Image, alignStep, ha, hw1, hh1, hi1, hj1, hw2, hh2, hi2, hj2]
  rw [heq]

/-- Witness for C10: width/height 1x1 versus 2x3 with an empty payload
produce the same bytes. -/
theorem image_ignores_dims_witness :
    (Printer.Image [(bytes "width", bytes "1"), (bytes "height", bytes "1")] []
      pdefault).out =
    (Printer.Image [(bytes "width", bytes "2"), (bytes "height", bytes "3")] []
      pdefault).out :=
  image_ignores_dims pdefault []
    [(bytes "width", bytes "1"), (bytes "height", bytes "1")]
    [(bytes "width", bytes "2"), (bytes "height", bytes "3")]
    (bytes "1") (bytes "2") (bytes "1") (bytes "3") 1 2 1 3
    (by decide) (by decide) (by decide) (by decide) (by decide)
    (by decide) (by decide) (by decide) (by decide)

end EscPos
